import Mathlib

/-!
Shallow embedding of `pybemt/solver.py` (Blade Element Momentum Theory solver).

Modelling conventions:
* Python floats are modelled by real numbers `ℝ`; `math.sin`, `math.cos`,
  `math.exp`, `math.acos`, `math.sqrt` become `Real.sin`, `Real.cos`,
  `Real.exp`, `Real.arccos`, `Real.sqrt`.
* The in-place mutation of `Section` objects is rendered by explicit state
  passing: a method that mutates its receiver returns the updated `Section`.
* The back-reference `self.rotor` held by a Python `Section` is rendered by
  passing the owning `Rotor` as an explicit first argument.
* Where Python-float evaluation raises (division by an exact zero, square
  root of a negative number — the airfoil interface of spec §6 returns
  plain floats, whose division by an exact zero raises ZeroDivisionError),
  the embedded function returns `Option ℝ` with `none` for the uncaught
  exception. Where no claim depends on those outcomes the embedding uses
  total real division (`x / 0 = 0` in Lean) for simplicity.
* `scipy.optimize.bisect` is external; the root-finding policy of
  `Solver.solve` (bisection with brute-force fallback, §4.3 of the spec) is
  abstracted as a function parameter `phiOf : Section → ℝ → ℝ → ℝ` giving
  the inflow angle chosen for a section at an inflow velocity and omega.
  `Solver.brute_solve` is embedded concretely.
-/

open Real Filter

noncomputable section

/-- Airfoil capability consumed by the core (out-of-scope collaborator):
pure lift and drag coefficient functions of the angle of attack. -/
structure Airfoil where
  Cl : ℝ → ℝ
  Cd : ℝ → ℝ

/-- Fluid properties (`Fluid.__init__`): density and dynamic viscosity. -/
structure Fluid where
  rho : ℝ
  mu : ℝ

/-- One radial blade station (`Section.__init__`): static geometry, the sign
convention `C` (+1 propeller, -1 turbine), the derived solidity `sigma`, and
the mutable per-solve reporting fields, all initialised to `0.0` by the
Python constructor. -/
structure Section where
  airfoil : Airfoil
  radius : ℝ
  width : ℝ
  pitch : ℝ
  chord : ℝ
  C : ℝ
  sigma : ℝ
  v : ℝ := 0
  v_theta : ℝ := 0
  v_rel : ℝ := 0
  a : ℝ := 0
  ap : ℝ := 0
  Re : ℝ := 0
  alpha : ℝ := 0
  dT : ℝ := 0
  dQ : ℝ := 0
  F : ℝ := 0
  Cl : ℝ := 0
  Cd : ℝ := 0

/-- Sign convention chosen in `Section.__init__` from the mode string:
`-1` for `'turbine'`, `+1` otherwise. -/
def modeSign (mode : String) : ℝ :=
  if mode = "turbine" then -1 else 1

/-- Rotor assembly (`Rotor`): blade count, diameter, hub radius, the fields
`blade_radius` and `area` recomputed by `precalc`, and the owned sections. -/
structure Rotor where
  n_blades : ℕ
  diameter : ℝ
  radius_hub : ℝ
  blade_radius : ℝ
  area : ℝ
  sections : List Section

/-- `Rotor.precalc`: recompute `blade_radius = 0.5*diameter` and
`area = pi*blade_radius**2`. -/
def Rotor.precalc (r : Rotor) : Rotor :=
  { r with blade_radius := 0.5 * r.diameter, area := π * (0.5 * r.diameter) ^ 2 }

/-- Unguarded Prandtl sub-factor formula `2*acos(min(1.0, exp(-f)))/pi`
(the `else` branch of `prandtl` inside `Section.tip_loss`). -/
def prandtlUnguarded (f : ℝ) : ℝ :=
  2 * Real.arccos (min 1 (Real.exp (-f))) / π

/-- Body of the inner function `prandtl` of `Section.tip_loss` as a function
of the already computed `f`: when `-f > 500` the factor is clamped to `1.0`
without evaluating `exp` (overflow guard), otherwise the unguarded formula. -/
def prandtlFactor (f : ℝ) : ℝ :=
  if -f > 500 then 1 else prandtlUnguarded f

/-- Inner function `prandtl(dr, r, phi)` of `Section.tip_loss`:
`f = n_blades*dr/(2*r*sin(phi))` fed to the guarded factor. -/
def Section.prandtl (n_blades : ℕ) (dr r phi : ℝ) : ℝ :=
  prandtlFactor ((n_blades : ℝ) * dr / (2 * r * Real.sin phi))

/-- `Section.tip_loss`: `F = 1` for `phi == 0`, otherwise the product of the
Prandtl tip factor (gap `blade_radius - radius`) and hub factor (gap
`radius - radius_hub`). The assignment `self.F = F` is rendered where the
callers update state (`Section.forces`). -/
def Section.tip_loss (rotor : Rotor) (sec : Section) (phi : ℝ) : ℝ :=
  if phi = 0 then 1
  else
    Section.prandtl rotor.n_blades (rotor.blade_radius - sec.radius) sec.radius phi *
      Section.prandtl rotor.n_blades (sec.radius - rotor.radius_hub) sec.radius phi

/-- Angle of attack computed in `Section.airfoil_forces`:
`alpha = C*(pitch - phi)`. -/
def Section.alphaOf (sec : Section) (phi : ℝ) : ℝ :=
  sec.C * (sec.pitch - phi)

/-- `Section.airfoil_forces`: query `Cl`, `Cd` at `alpha = C*(pitch - phi)`
and resolve into `CT = Cl*cos(phi) - C*Cd*sin(phi)`,
`CQ = Cl*sin(phi) + C*Cd*cos(phi)`. -/
def Section.airfoil_forces (sec : Section) (phi : ℝ) : ℝ × ℝ :=
  let alpha := Section.alphaOf sec phi
  let Cl := sec.airfoil.Cl alpha
  let Cd := sec.airfoil.Cd alpha
  (Cl * Real.cos phi - sec.C * Cd * Real.sin phi,
   Cl * Real.sin phi + sec.C * Cd * Real.cos phi)

/-- `Section.induction_factors` with total real division (used on the
success path of `Section.forces`): `kappa = 4*F*sin(phi)**2/(sigma*CT)`,
`kappap = 4*F*sin(phi)*cos(phi)/(sigma*CQ)`, `a = 1/(kappa - C)`,
`ap = 1/(kappap + C)`. -/
def Section.induction_factors (rotor : Rotor) (sec : Section) (phi : ℝ) : ℝ × ℝ :=
  let F := Section.tip_loss rotor sec phi
  let CTQ := Section.airfoil_forces sec phi
  let kappa := 4 * F * Real.sin phi ^ 2 / (sec.sigma * CTQ.1)
  let kappap := 4 * F * Real.sin phi * Real.cos phi / (sec.sigma * CTQ.2)
  (1 / (kappa - sec.C), 1 / (kappap + sec.C))

/-- `Section.func`, the residual of the per-section root-find, with `none`
modelling the `ZeroDivisionError` raised by Python float division when a
denominator is exactly zero (the airfoil interface returns plain floats,
spec §6; spec §7 calls this state `NonFiniteInduction`); the error is
raised, in evaluation order, by the `f` computation inside `tip_loss`
(skipped when `phi == 0`), the `kappa`/`kappap` divisions, the `a`/`ap`
divisions, and the two divisions of the residual itself. On the success
path the residual is
`sin(phi)/(1 + C*a) - v_inf*cos(phi)/(omega*radius*(1 - C*ap))`. -/
def Section.func (rotor : Rotor) (sec : Section) (phi v_inf omega : ℝ) : Option ℝ :=
  let F := Section.tip_loss rotor sec phi
  let CTQ := Section.airfoil_forces sec phi
  if phi ≠ 0 ∧ 2 * sec.radius * Real.sin phi = 0 then none
  else if sec.sigma * CTQ.1 = 0 then none
  else if sec.sigma * CTQ.2 = 0 then none
  else
    let kappa := 4 * F * Real.sin phi ^ 2 / (sec.sigma * CTQ.1)
    let kappap := 4 * F * Real.sin phi * Real.cos phi / (sec.sigma * CTQ.2)
    if kappa - sec.C = 0 then none
    else if kappap + sec.C = 0 then none
    else
      let a := 1 / (kappa - sec.C)
      let ap := 1 / (kappap + sec.C)
      if 1 + sec.C * a = 0 then none
      else if omega * sec.radius * (1 - sec.C * ap) = 0 then none
      else
        some (Real.sin phi / (1 + sec.C * a) -
          v_inf * Real.cos phi / (omega * sec.radius * (1 - sec.C * ap)))

/-- `Section.forces` in state-passing form: returns `(dT, dQ, updated
section)`. The Python method assigns `self.Re`, `self.dT`, `self.dQ` and —
through the `tip_loss` call inside `induction_factors` — `self.F`; it does
not assign `a`, `ap`, `Cl` or `Cd` (those fields are left as they were). -/
def Section.forces (rotor : Rotor) (fluid : Fluid) (sec : Section)
    (phi v_inf omega : ℝ) : ℝ × ℝ × Section :=
  let F := Section.tip_loss rotor sec phi
  let aap := Section.induction_factors rotor sec phi
  let CTQ := Section.airfoil_forces sec phi
  let v := (1 + sec.C * aap.1) * v_inf
  let vp := (1 - sec.C * aap.2) * omega * sec.radius
  let U := Real.sqrt (v ^ 2 + vp ^ 2)
  let Re := fluid.rho * U * sec.chord / fluid.mu
  let dT := sec.sigma * π * fluid.rho * U ^ 2 * CTQ.1 * sec.radius * sec.width
  let dQ := sec.sigma * π * fluid.rho * U ^ 2 * CTQ.2 * sec.radius ^ 2 * sec.width
  (dT, dQ, { sec with F := F, Re := Re, dT := dT, dQ := dQ })

/-- Row of `Rotor.sections_dataframe`: the reporting columns
`{radius, chord, pitch, Cl, Cd, dT, dQ, F, a, ap, Re}`. -/
structure SectionRow where
  radius : ℝ
  chord : ℝ
  pitch : ℝ
  Cl : ℝ
  Cd : ℝ
  dT : ℝ
  dQ : ℝ
  F : ℝ
  a : ℝ
  ap : ℝ
  Re : ℝ

/-- `Rotor.sections_dataframe`: one row per section, reading the stored
reporting fields. -/
def sections_dataframe (secs : List Section) : List SectionRow :=
  secs.map fun s =>
    ⟨s.radius, s.chord, s.pitch, s.Cl, s.Cd, s.dT, s.dQ, s.F, s.a, s.ap, s.Re⟩

/-- Solver state relevant to `solve`, `slipstream`, `run` (`Solver.__init__`
reads these from the configuration file): case parameters, primary and
secondary rotors, fluid, slipstream coefficient `Cs`, and the abstracted
per-section root-finding policy `phiOf` (§4.3). -/
structure SolverCfg where
  v_inf : ℝ
  rpm : ℝ
  rotor : Rotor
  fluid : Fluid
  coaxial : Bool
  rpm2 : ℝ
  rotor2 : Rotor
  Cs : ℝ
  phiOf : Section → ℝ → ℝ → ℝ

/-- Per-section inflow-velocity gate at the top of the loop in
`Solver.solve`: `v = v_inflow` if `sec.radius < r_inflow` else `0.0`. -/
def inflowVelocity (sec : Section) (v_inflow r_inflow : ℝ) : ℝ :=
  if sec.radius < r_inflow then v_inflow else 0

/-- `Solver.solve(rotor, rpm, v_inflow, r_inflow)`: recompute rotor geometry
(`rotor.precalc()`), set `omega = rpm*2*pi/60`, then loop over the sections
accumulating `T += dT`, `Q += dQ` with the gated inflow velocity and the
inflow angle chosen by the root-finding policy; finally `P = Q*omega`.
Returns `(T, Q, P)`. -/
def Solver.solve (phiOf : Section → ℝ → ℝ → ℝ) (fluid : Fluid) (rotor : Rotor)
    (rpm v_inflow r_inflow : ℝ) : ℝ × ℝ × ℝ :=
  let rotor := Rotor.precalc rotor
  let omega := rpm * 2 * π / 60
  let TQ := rotor.sections.foldl
    (fun TQ sec =>
      let v := inflowVelocity sec v_inflow r_inflow
      let phi := phiOf sec v omega
      let f := Section.forces rotor fluid sec phi v omega
      (TQ.1 + f.1, TQ.2 + f.2.1))
    ((0 : ℝ), (0 : ℝ))
  (TQ.1, TQ.2, TQ.2 * omega)

/-- State left on the sections by `Solver.solve` (the Python loop mutates
each section in place through `sec.forces`); rendered as a map producing the
updated sections in order. -/
def Solver.solveSections (phiOf : Section → ℝ → ℝ → ℝ) (fluid : Fluid) (rotor : Rotor)
    (rpm v_inflow r_inflow : ℝ) : List Section :=
  let rotor := Rotor.precalc rotor
  let omega := rpm * 2 * π / 60
  rotor.sections.map fun sec =>
    let v := inflowVelocity sec v_inflow r_inflow
    let phi := phiOf sec v omega
    (Section.forces rotor fluid sec phi v omega).2.2

/-- `Solver.slipstream`: contracted slipstream radius
`r_s = blade_radius/sqrt(2.0)` and velocity `v_s = Cs*sqrt(2*T/(rho*area))`,
for the thrust `T` of the primary solve. `none` models the exception raised
by Python when `rho*area` is exactly zero (division by zero) or when the
`sqrt` argument is negative (`math domain error`). The rotor fields are the
ones recomputed by the preceding `solve` call's `precalc`. -/
def Solver.slipstream (cfg : SolverCfg) (T : ℝ) : Option (ℝ × ℝ) :=
  let rotor := Rotor.precalc cfg.rotor
  if cfg.fluid.rho * rotor.area = 0 then none
  else if 2 * T / (cfg.fluid.rho * rotor.area) < 0 then none
  else
    some (rotor.blade_radius / Real.sqrt 2,
      cfg.Cs * Real.sqrt (2 * T / (cfg.fluid.rho * rotor.area)))

/-- Result of `Solver.run`: primary `(T, Q, P)` and section summary, plus
the secondary rotor's results in coaxial mode. -/
structure RunResult where
  T : ℝ
  Q : ℝ
  P : ℝ
  df : List SectionRow
  secondary : Option (ℝ × ℝ × ℝ × List SectionRow)

/-- `Solver.run`: solve the primary rotor with `inflowRadius =
rotor.diameter`; in coaxial mode derive the slipstream from the primary
thrust and solve the secondary rotor with `inflowVelocity = v_s`,
`inflowRadius = r_s` and its own rpm. `none` models the uncaught exception
propagating out of `slipstream`. -/
def Solver.run (cfg : SolverCfg) : Option RunResult :=
  let prim := Solver.solve cfg.phiOf cfg.fluid cfg.rotor cfg.rpm cfg.v_inf cfg.rotor.diameter
  let secs := Solver.solveSections cfg.phiOf cfg.fluid cfg.rotor cfg.rpm cfg.v_inf cfg.rotor.diameter
  if cfg.coaxial then
    match Solver.slipstream cfg prim.1 with
    | none => none
    | some rv =>
      let sec2 := Solver.solve cfg.phiOf cfg.fluid cfg.rotor2 cfg.rpm2 rv.2 rv.1
      let secs2 := Solver.solveSections cfg.phiOf cfg.fluid cfg.rotor2 cfg.rpm2 rv.2 rv.1
      some ⟨prim.1, prim.2.1, prim.2.2, sections_dataframe secs,
        some (sec2.1, sec2.2.1, sec2.2.2, sections_dataframe secs2)⟩
  else
    some ⟨prim.1, prim.2.1, prim.2.2, sections_dataframe secs, none⟩

/-- Sampling grid of `Solver.brute_solve`:
`np.linspace(-0.9*pi, 0.9*pi, n)`, i.e. `-0.9*pi + i*(1.8*pi/(n-1))`. -/
def bruteGrid (n : ℕ) : List ℝ :=
  (List.range n).map fun i : ℕ => -0.9 * π + (i : ℝ) * (1.8 * π / ((n - 1 : ℕ) : ℝ))

/-- `Solver.brute_solve`: fills the residual array over the `n = 3600`-point
grid and returns the grid angle of smallest residual magnitude
(`np.argmin` keeps the first index on ties, as does `List.argmin`). The
loop catches no exceptions, so if any grid evaluation of `sec.func`
divides by an exact zero, the `ZeroDivisionError` propagates and the whole
call fails: `none`. The `if not np.isnan(res)` branch substitutes the
`1e30` sentinel only for a NaN result, which a successful pure-float
evaluation (a real number in this model) never is, so on the success path
the array holds the residuals themselves. -/
def Solver.brute_solve (rotor : Rotor) (sec : Section) (v omega : ℝ)
    (n : ℕ := 3600) : Option ℝ :=
  if (bruteGrid n).all (fun phi => (Section.func rotor sec phi v omega).isSome) then
    some (((bruteGrid n).argmin
      fun phi => |(Section.func rotor sec phi v omega).getD 0|).getD 0)
  else none

/-- Column list built by `Solver.run_sweep` for a coaxial propeller sweep
(13 columns; the first is the swept parameter's name). -/
def coaxialSweepColumns : List String :=
  ["parameter", "T", "Q", "P", "J", "CT", "CQ", "CP", "eta",
   "CT2", "CQ2", "CP2", "eta2"]

/-- Names of the values placed in the row assigned by `Solver.run_sweep` in
the coaxial branch: `[p, T, Q, P, T2, Q2, P2, J, CT, CQ, CP, eta, CT2, CP2,
eta2]` (15 entries). -/
def coaxialSweepRowNames : List String :=
  ["p", "T", "Q", "P", "T2", "Q2", "P2", "J", "CT", "CQ", "CP", "eta",
   "CT2", "CP2", "eta2"]

/-- Names bound in the coaxial branch of `Solver.run_sweep` before the row
assignment: the loop variables, the unpacked results of `run()`, and the
outputs of the two `rotor_coeffs` calls (the second call rebinds `J` and
`eta`; no name `eta2` is ever bound). -/
def coaxialSweepDefinedNames : List String :=
  ["i", "p", "T", "Q", "P", "sec_df", "T2", "Q2", "P2", "sec_df2",
   "J", "CT", "CQ", "CP", "eta", "CT2", "CQ2", "CP2"]

/-- Concrete airfoil from the spec's end-to-end scenario (§8): constant
`Cl = 0.5`, `Cd = 0.02`. -/
def wAirfoil : Airfoil := ⟨fun _ => 1 / 2, fun _ => 1 / 50⟩

/-- Concrete propeller-mode section used to instantiate theorems. -/
def wSecP : Section :=
  { airfoil := wAirfoil, radius := 1 / 2, width := 1 / 10, pitch := 1 / 4,
    chord := 1 / 20, C := 1, sigma := 1 }

/-- The same section in turbine mode (`C = -1`). -/
def wSecT : Section := { wSecP with C := -1 }

/-- Concrete rotor used to instantiate theorems: 2 blades, diameter 1.5,
hub radius 0.1, one section. -/
def wRotor : Rotor :=
  { n_blades := 2, diameter := 3 / 2, radius_hub := 1 / 10, blade_radius := 3 / 4,
    area := 0, sections := [wSecP] }

/-- Concrete solver configuration used to instantiate theorems. -/
def wCfg : SolverCfg :=
  { v_inf := 2, rpm := 0, rotor := wRotor, fluid := ⟨1, 1⟩, coaxial := false,
    rpm2 := 0, rotor2 := wRotor, Cs := 5 / 8, phiOf := fun _ _ _ => π / 2 }

/-- Rotor instantiating the boundary behaviour of `tip_loss`: one blade,
hub radius 1, blade radius 2. -/
def cexRotor : Rotor :=
  { n_blades := 1, diameter := 4, radius_hub := 1, blade_radius := 2,
    area := 0, sections := [] }

/-- Section sitting exactly at the blade tip of `cexRotor`. -/
def cexSecTip : Section :=
  { airfoil := wAirfoil, radius := 2, width := 1, pitch := 0, chord := 1,
    C := 1, sigma := 1 }

/-- Section sitting exactly at the hub radius of `cexRotor`. -/
def cexSecHub : Section := { cexSecTip with radius := 1 }

/-- Airfoil with constant `Cl = -4`, `Cd = 4`, chosen to make the single
section of `bRotor` produce a negative thrust. -/
def bAirfoil : Airfoil := ⟨fun _ => -4, fun _ => 4⟩

/-- Section of `bRotor`. -/
def bSec : Section :=
  { airfoil := bAirfoil, radius := 1, width := 1, pitch := 0, chord := 1,
    C := 1, sigma := 1 }

/-- Rotor whose blade radius lies below and whose hub radius lies above its
single section's radius, so both `tip_loss` guards fire and `F = 1`. -/
def bRotor : Rotor :=
  { n_blades := 8000, diameter := 3 / 2, radius_hub := 1000, blade_radius := 0,
    area := 0, sections := [bSec] }

/-- Coaxial configuration whose primary solve yields thrust `-4*pi < 0`. -/
def bCfg : SolverCfg :=
  { v_inf := 2, rpm := 0, rotor := bRotor, fluid := ⟨1, 1⟩, coaxial := true,
    rpm2 := 0, rotor2 := bRotor, Cs := 5 / 8, phiOf := fun _ _ _ => π / 2 }

/-- Airfoil chosen so that `aSec` has `CT = -1` and `CQ = sin(phi)*cos(phi)`
at every inflow angle, keeping every divisor of the residual away from
zero on the whole brute-force grid. -/
def aAirfoil : Airfoil :=
  ⟨fun alpha => -Real.cos alpha + Real.sin alpha ^ 2 * Real.cos alpha,
   fun alpha => -Real.sin alpha - Real.sin alpha * Real.cos alpha ^ 2⟩

/-- Propeller-mode section carrying `aAirfoil`. -/
def aSec : Section :=
  { airfoil := aAirfoil, radius := 1, width := 1, pitch := 0, chord := 1,
    C := 1, sigma := 1 }

/-- Rotor whose blade radius (0) lies below and whose hub radius (2) lies
above its section's radius (1), so that both Prandtl gaps are `-1` and the
tip-loss factor stays strictly positive at every grid angle. -/
def aRotor : Rotor :=
  { n_blades := 2000, diameter := 0, radius_hub := 2, blade_radius := 0,
    area := 0, sections := [aSec] }

/-- Accumulating a pair of running sums over a list equals the pair of
mapped sums (the loop shape of `Solver.solve`). -/
theorem foldl_add_pair {α : Type} (f g : α → ℝ) (l : List α) (a b : ℝ) :
    l.foldl (fun p x => (p.1 + f x, p.2 + g x)) (a, b)
      = (a + (l.map f).sum, b + (l.map g).sum) := by
  induction l generalizing a b with
  | nil => simp
  | cons x xs ih => simp [ih, add_assoc]

/-- Loop body of `Solver.solve` in closed form: folding the accumulation
over any list of sections equals the pair of mapped sums. -/
theorem solve_foldl_eq_sums (phiOf : Section → ℝ → ℝ → ℝ) (fluid : Fluid)
    (R : Rotor) (v_inflow r_inflow omega : ℝ) (l : List Section) (a b : ℝ) :
    l.foldl (fun TQ sec =>
        (TQ.1 + (Section.forces R fluid sec
            (phiOf sec (inflowVelocity sec v_inflow r_inflow) omega)
            (inflowVelocity sec v_inflow r_inflow) omega).1,
         TQ.2 + (Section.forces R fluid sec
            (phiOf sec (inflowVelocity sec v_inflow r_inflow) omega)
            (inflowVelocity sec v_inflow r_inflow) omega).2.1)) (a, b)
      = (a + (l.map fun sec => (Section.forces R fluid sec
            (phiOf sec (inflowVelocity sec v_inflow r_inflow) omega)
            (inflowVelocity sec v_inflow r_inflow) omega).1).sum,
         b + (l.map fun sec => (Section.forces R fluid sec
            (phiOf sec (inflowVelocity sec v_inflow r_inflow) omega)
            (inflowVelocity sec v_inflow r_inflow) omega).2.1).sum) := by
  induction l generalizing a b with
  | nil => simp
  | cons x xs ih => simp [ih, add_assoc]

/-- C1: `Solver.solve` recomputes the rotor geometry, gates each section's
inflow velocity by `radius < r_inflow`, solves for `phi`, and returns
exactly the sums `T = sum dT`, `Q = sum dQ` and `P = Q*omega` with
`omega = rpm*2*pi/60`; the per-section summary state is the list of
per-section updates in order. -/
theorem solve_returns_sums (phiOf : Section → ℝ → ℝ → ℝ) (fluid : Fluid)
    (rotor : Rotor) (rpm v_inflow r_inflow : ℝ) :
    (Solver.solve phiOf fluid rotor rpm v_inflow r_inflow =
      ((((Rotor.precalc rotor).sections.map fun sec =>
          (Section.forces (Rotor.precalc rotor) fluid sec
            (phiOf sec (inflowVelocity sec v_inflow r_inflow) (rpm * 2 * π / 60))
            (inflowVelocity sec v_inflow r_inflow) (rpm * 2 * π / 60)).1).sum,
       (((Rotor.precalc rotor).sections.map fun sec =>
          (Section.forces (Rotor.precalc rotor) fluid sec
            (phiOf sec (inflowVelocity sec v_inflow r_inflow) (rpm * 2 * π / 60))
            (inflowVelocity sec v_inflow r_inflow) (rpm * 2 * π / 60)).2.1).sum),
       (((Rotor.precalc rotor).sections.map fun sec =>
          (Section.forces (Rotor.precalc rotor) fluid sec
            (phiOf sec (inflowVelocity sec v_inflow r_inflow) (rpm * 2 * π / 60))
            (inflowVelocity sec v_inflow r_inflow) (rpm * 2 * π / 60)).2.1).sum)
         * (rpm * 2 * π / 60))))
    ∧ Solver.solveSections phiOf fluid rotor rpm v_inflow r_inflow =
        ((Rotor.precalc rotor).sections.map fun sec =>
          (Section.forces (Rotor.precalc rotor) fluid sec
            (phiOf sec (inflowVelocity sec v_inflow r_inflow) (rpm * 2 * π / 60))
            (inflowVelocity sec v_inflow r_inflow) (rpm * 2 * π / 60)).2.2) := by
  constructor
  · simp only [Solver.solve]
    rw [solve_foldl_eq_sums]
    simp
  · rfl

/-- C5 evidence: `Section.forces` stores `F`, `Re`, `dT`, `dQ` on the
section but leaves `Cl`, `Cd`, `a` and `ap` exactly as they were, so those
summary columns do not reflect the solved `phi`. -/
theorem forces_stores_partial (rotor : Rotor) (fluid : Fluid) (sec : Section)
    (phi v_inf omega : ℝ) :
    ((Section.forces rotor fluid sec phi v_inf omega).2.2.Cl = sec.Cl)
    ∧ ((Section.forces rotor fluid sec phi v_inf omega).2.2.Cd = sec.Cd)
    ∧ ((Section.forces rotor fluid sec phi v_inf omega).2.2.a = sec.a)
    ∧ ((Section.forces rotor fluid sec phi v_inf omega).2.2.ap = sec.ap)
    ∧ ((Section.forces rotor fluid sec phi v_inf omega).2.2.F
        = Section.tip_loss rotor sec phi)
    ∧ ((Section.forces rotor fluid sec phi v_inf omega).2.2.dT
        = (Section.forces rotor fluid sec phi v_inf omega).1)
    ∧ ((Section.forces rotor fluid sec phi v_inf omega).2.2.dQ
        = (Section.forces rotor fluid sec phi v_inf omega).2.1) :=
  ⟨rfl, rfl, rfl, rfl, rfl, rfl, rfl⟩

/-- C6 evidence: the row assigned in the coaxial branch of
`Solver.run_sweep` uses the unbound name `eta2` and has 15 entries against
13 columns, so every coaxial sweep iteration fails instead of recording a
row. -/
theorem coaxial_sweep_row_malformed :
    "eta2" ∈ coaxialSweepRowNames
    ∧ "eta2" ∉ coaxialSweepDefinedNames
    ∧ coaxialSweepRowNames.length ≠ coaxialSweepColumns.length := by
  decide

/-- C8: with geometry held fixed, the angle of attack computed in
`airfoil_forces` in propeller mode (`C = +1`) is exactly the negation of
the one computed in turbine mode (`C = -1`) at the same pitch and `phi`. -/
theorem alpha_mode_sign_flip (s t : Section) (phi : ℝ)
    (hs : s.C = modeSign "rotor") (ht : t.C = modeSign "turbine")
    (hp : s.pitch = t.pitch) :
    Section.alphaOf s phi = -Section.alphaOf t phi := by
  have h1 : modeSign "rotor" = 1 := by
    rw [modeSign, if_neg]; decide
  have h2 : modeSign "turbine" = -1 := by
    rw [modeSign, if_pos]; rfl
  simp only [Section.alphaOf, hs, ht, hp, h1, h2]
  ring

/-- C8 witness at a concrete pair of sections and `phi = 1`. -/
theorem alpha_mode_sign_flip_witness :
    Section.alphaOf wSecP 1 = -Section.alphaOf wSecT 1 :=
  alpha_mode_sign_flip wSecP wSecT 1 (by simp [wSecP, modeSign])
    (by simp [wSecT, wSecP, modeSign]) rfl

/-- C9: `Solver.run` solves the primary rotor with inflow radius equal to
the full rotor diameter, so every section with radius at most the blade
radius (half the diameter) of the recomputed geometry passes the gate and
receives the full free-stream velocity; the zero-inflow branch is
unreachable. -/
theorem primary_inflow_full_disk (cfg : SolverCfg) (sec : Section)
    (hd : 0 < cfg.rotor.diameter)
    (hr : sec.radius ≤ (Rotor.precalc cfg.rotor).blade_radius) :
    inflowVelocity sec cfg.v_inf cfg.rotor.diameter = cfg.v_inf := by
  have hb : (Rotor.precalc cfg.rotor).blade_radius = 0.5 * cfg.rotor.diameter := rfl
  rw [hb] at hr
  have hlt : sec.radius < cfg.rotor.diameter := by nlinarith
  simp [inflowVelocity, hlt]

/-- C9 witness at the concrete configuration `wCfg`. -/
theorem primary_inflow_full_disk_witness :
    inflowVelocity wSecP wCfg.v_inf wCfg.rotor.diameter = wCfg.v_inf :=
  primary_inflow_full_disk wCfg wSecP (by norm_num [wCfg, wRotor])
    (by norm_num [wCfg, wRotor, wSecP, Rotor.precalc])

/-- Prandtl sub-factor bounds: for a strictly positive `f` the guarded
factor lies in `(0, 1)` (hence in `(0, 1]`). -/
theorem prandtlFactor_mem {f : ℝ} (hf : 0 < f) :
    0 < prandtlFactor f ∧ prandtlFactor f ≤ 1 := by
  have hguard : ¬(-f > 500) := by linarith
  rw [prandtlFactor, if_neg hguard, prandtlUnguarded]
  have hexp1 : Real.exp (-f) < 1 := by
    rw [show (1 : ℝ) = Real.exp 0 by rw [Real.exp_zero]]
    exact Real.exp_lt_exp.mpr (by linarith)
  have hmin1 : min 1 (Real.exp (-f)) < 1 :=
    lt_of_le_of_lt (min_le_right _ _) hexp1
  have hmin0 : 0 ≤ min 1 (Real.exp (-f)) :=
    le_min zero_le_one (Real.exp_pos _).le
  constructor
  · exact div_pos (mul_pos two_pos (Real.arccos_pos.mpr hmin1)) Real.pi_pos
  · rw [div_le_one Real.pi_pos]
    have := Real.arccos_le_pi_div_two.mpr hmin0
    linarith

/-- C2 (amended): for a section whose radius lies strictly between the hub
radius and the blade radius, at least one blade, a nonnegative hub radius
and `phi` in `(0, pi)`, the tip-loss factor lies in `(0, 1]`; at `phi = 0`
it equals exactly 1. -/
theorem tip_loss_unit_interval (rotor : Rotor) (sec : Section) (phi : ℝ)
    (hb : 1 ≤ rotor.n_blades) (hhub : 0 ≤ rotor.radius_hub)
    (hlo : rotor.radius_hub < sec.radius) (hhi : sec.radius < rotor.blade_radius)
    (h0 : 0 < phi) (h1 : phi < π) :
    (0 < Section.tip_loss rotor sec phi ∧ Section.tip_loss rotor sec phi ≤ 1)
    ∧ Section.tip_loss rotor sec 0 = 1 := by
  have hr : 0 < sec.radius := lt_of_le_of_lt hhub hlo
  have hs : 0 < Real.sin phi := Real.sin_pos_of_pos_of_lt_pi h0 h1
  have hnb : (0 : ℝ) < (rotor.n_blades : ℝ) := by
    exact_mod_cast Nat.lt_of_lt_of_le Nat.zero_lt_one hb
  have htipf : 0 < (rotor.n_blades : ℝ) * (rotor.blade_radius - sec.radius)
      / (2 * sec.radius * Real.sin phi) :=
    div_pos (mul_pos hnb (by linarith)) (by positivity)
  have hhubf : 0 < (rotor.n_blades : ℝ) * (sec.radius - rotor.radius_hub)
      / (2 * sec.radius * Real.sin phi) :=
    div_pos (mul_pos hnb (by linarith)) (by positivity)
  have t1 := prandtlFactor_mem htipf
  have t2 := prandtlFactor_mem hhubf
  have hphi : phi ≠ 0 := ne_of_gt h0
  refine ⟨⟨?_, ?_⟩, ?_⟩
  · rw [Section.tip_loss, if_neg hphi, Section.prandtl, Section.prandtl]
    exact mul_pos t1.1 t2.1
  · rw [Section.tip_loss, if_neg hphi, Section.prandtl, Section.prandtl]
    calc prandtlFactor ((rotor.n_blades : ℝ) * (rotor.blade_radius - sec.radius)
          / (2 * sec.radius * Real.sin phi))
        * prandtlFactor ((rotor.n_blades : ℝ) * (sec.radius - rotor.radius_hub)
          / (2 * sec.radius * Real.sin phi))
        ≤ 1 * 1 := mul_le_mul t1.2 t2.2 t2.1.le zero_le_one
      _ = 1 := one_mul 1
  · simp [Section.tip_loss]

/-- C2 witness at a concrete rotor, section and `phi = pi/2`. -/
theorem tip_loss_unit_interval_witness :
    (0 < Section.tip_loss wRotor wSecT (π / 2)
      ∧ Section.tip_loss wRotor wSecT (π / 2) ≤ 1)
    ∧ Section.tip_loss wRotor wSecT 0 = 1 := by
  refine tip_loss_unit_interval wRotor wSecT (π / 2) ?_ ?_ ?_ ?_ ?_ ?_
  · norm_num [wRotor]
  · norm_num [wRotor]
  · norm_num [wRotor, wSecT, wSecP]
  · norm_num [wRotor, wSecT, wSecP]
  · positivity
  · linarith [Real.pi_pos]

/-- C2 counterexample: at the closed-interval endpoints the claim fails —
a section whose radius equals the blade radius (or the hub radius) has a
vanishing Prandtl gap, the sub-factor `2*acos(min(1, exp(0)))/pi` is `0`,
and the tip-loss factor is `0`, not in `(0, 1]`. -/
theorem tip_loss_zero_at_boundary :
    (cexRotor.radius_hub ≤ cexSecTip.radius
      ∧ cexSecTip.radius ≤ cexRotor.blade_radius
      ∧ Section.tip_loss cexRotor cexSecTip (π / 2) = 0)
    ∧ (cexRotor.radius_hub ≤ cexSecHub.radius
      ∧ cexSecHub.radius ≤ cexRotor.blade_radius
      ∧ Section.tip_loss cexRotor cexSecHub (π / 2) = 0) := by
  have hphi : (π / 2 : ℝ) ≠ 0 := by positivity
  refine ⟨⟨by norm_num [cexRotor, cexSecTip], by norm_num [cexRotor, cexSecTip], ?_⟩,
    ⟨by norm_num [cexRotor, cexSecHub, cexSecTip],
     by norm_num [cexRotor, cexSecHub, cexSecTip], ?_⟩⟩
  · rw [Section.tip_loss, if_neg hphi]
    have : Section.prandtl cexRotor.n_blades
        (cexRotor.blade_radius - cexSecTip.radius) cexSecTip.radius (π / 2) = 0 := by
      rw [Section.prandtl, show cexRotor.blade_radius - cexSecTip.radius = 0 by
        norm_num [cexRotor, cexSecTip]]
      rw [prandtlFactor, if_neg (by norm_num)]
      simp [prandtlUnguarded]
    rw [this, zero_mul]
  · rw [Section.tip_loss, if_neg hphi]
    have : Section.prandtl cexRotor.n_blades
        (cexSecHub.radius - cexRotor.radius_hub) cexSecHub.radius (π / 2) = 0 := by
      rw [Section.prandtl, show cexSecHub.radius - cexRotor.radius_hub = 0 by
        norm_num [cexRotor, cexSecHub, cexSecTip]]
      rw [prandtlFactor, if_neg (by norm_num)]
      simp [prandtlUnguarded]
    rw [this, mul_zero]

/-- C4: when `-f > 500` the Prandtl sub-factor is clamped to exactly `1.0`
without evaluating `exp`, and `1` is the limit of the unguarded formula
`2*acos(min(1, exp(-f)))/pi` as `f` tends to infinity. -/
theorem prandtl_guard_matches_limit :
    (∀ f : ℝ, -f > 500 → prandtlFactor f = 1)
    ∧ Tendsto prandtlUnguarded atTop (nhds 1) := by
  constructor
  · intro f hf
    rw [prandtlFactor, if_pos hf]
  · have hmin : Tendsto (fun f : ℝ => min 1 (Real.exp (-f))) atTop (nhds 0) := by
      have h := Filter.Tendsto.min
        (tendsto_const_nhds (x := (1 : ℝ)) (f := atTop))
        Real.tendsto_exp_neg_atTop_nhds_zero
      simpa using h
    have harc : Tendsto (fun f : ℝ => Real.arccos (min 1 (Real.exp (-f)))) atTop
        (nhds (π / 2)) := by
      have h := (Real.continuous_arccos.tendsto 0).comp hmin
      simpa [Function.comp, Real.arccos_zero] using h
    have hful : Tendsto (fun f : ℝ => 2 * Real.arccos (min 1 (Real.exp (-f))) / π)
        atTop (nhds (2 * (π / 2) / π)) := (harc.const_mul 2).div_const π
    have hval : (2 * (π / 2) / π : ℝ) = 1 := by
      field_simp
    rw [hval] at hful
    exact hful.congr fun f => rfl

/-- C4 witness: the guard applied at the concrete value `f = -501`. -/
theorem prandtl_guard_matches_limit_witness : prandtlFactor (-501) = 1 :=
  prandtl_guard_matches_limit.1 (-501) (by norm_num)

/-- Every point of the brute-force sampling grid lies in
`[-0.9*pi, 0.9*pi]`. -/
theorem bruteGrid_bounds {x : ℝ} (hx : x ∈ bruteGrid 3600) :
    -0.9 * π ≤ x ∧ x ≤ 0.9 * π := by
  rw [bruteGrid] at hx
  obtain ⟨i, hi, rfl⟩ := List.mem_map.mp hx
  rw [List.mem_range] at hi
  have hcast : ((3600 - 1 : ℕ) : ℝ) = 3599 := by norm_num
  have hi' : (i : ℝ) ≤ 3599 := by exact_mod_cast Nat.lt_succ_iff.mp hi
  have hi0 : (0 : ℝ) ≤ (i : ℝ) := Nat.cast_nonneg i
  rw [hcast]
  have hstep : (0 : ℝ) ≤ 1.8 * π / 3599 := by positivity
  constructor
  · nlinarith [Real.pi_pos]
  · have hmul : (i : ℝ) * (1.8 * π / 3599) ≤ 3599 * (1.8 * π / 3599) :=
      mul_le_mul_of_nonneg_right hi' hstep
    have h3599 : (3599 : ℝ) * (1.8 * π / 3599) = 1.8 * π := by
      field_simp
    nlinarith [Real.pi_pos]

/-- With `omega = 0` the residual's second denominator
`omega*radius*(1 - C*ap)` is exactly `0.0` for every `phi`, so every
evaluation of `Section.func` fails (Python: `ZeroDivisionError`). -/
theorem func_none_of_omega_zero (rotor : Rotor) (sec : Section) (phi v : ℝ) :
    Section.func rotor sec phi v 0 = none := by
  simp [Section.func, zero_mul, ite_self]

/-- C3 counterexample: `brute_solve` does raise — at `omega = 0` (any
section, any inflow velocity) every grid evaluation of the residual
divides by the exact zero `omega*radius*(1 - C*ap)`, the
`ZeroDivisionError` is not caught by the loop (`np.isnan` only filters NaN
results), and the call fails instead of returning an angle. -/
theorem brute_solve_raises_on_zero_omega :
    Solver.brute_solve wRotor wSecP 0 0 = none := by
  have hmem : (-0.9 * π) ∈ bruteGrid 3600 := by
    rw [bruteGrid]
    refine List.mem_map.mpr ⟨0, ?_, by simp⟩
    simp
  have hall : ((bruteGrid 3600).all
      fun phi => (Section.func wRotor wSecP phi 0 0).isSome) = false := by
    rw [List.all_eq_false]
    exact ⟨-0.9 * π, hmem, by simp [func_none_of_omega_zero]⟩
  rw [Solver.brute_solve, hall]
  rfl

/-- C3 (amended): when every one of the 3600 uniformly spaced grid
evaluations of the residual succeeds (no division by an exact zero),
`brute_solve` raises nothing and returns a grid angle inside
`[-0.9*pi, 0.9*pi]` whose residual magnitude is less than or equal to the
residual magnitude at every other sampled grid point. -/
theorem brute_solve_success_argmin (rotor : Rotor) (sec : Section) (v omega : ℝ)
    (h : ∀ phi ∈ bruteGrid 3600, (Section.func rotor sec phi v omega).isSome = true) :
    ∃ m, Solver.brute_solve rotor sec v omega = some m
      ∧ (-0.9 * π ≤ m ∧ m ≤ 0.9 * π)
      ∧ ∀ phi ∈ bruteGrid 3600,
          |(Section.func rotor sec m v omega).getD 0|
            ≤ |(Section.func rotor sec phi v omega).getD 0| := by
  have hne : bruteGrid 3600 ≠ [] := by
    intro hEq
    have := congrArg List.length hEq
    simp [bruteGrid] at this
  obtain ⟨m, hm⟩ : ∃ m, (bruteGrid 3600).argmin
      (fun phi => |(Section.func rotor sec phi v omega).getD 0|) = some m := by
    cases hq : (bruteGrid 3600).argmin
        (fun phi => |(Section.func rotor sec phi v omega).getD 0|) with
    | none => exact absurd (List.argmin_eq_none.mp hq) hne
    | some m => exact ⟨m, rfl⟩
  have hmem : m ∈ (bruteGrid 3600).argmin
      (fun phi => |(Section.func rotor sec phi v omega).getD 0|) := by
    rw [hm]; rfl
  have hall : ((bruteGrid 3600).all
      fun phi => (Section.func rotor sec phi v omega).isSome) = true := by
    rw [List.all_eq_true]
    intro x hx
    exact h x hx
  refine ⟨m, ?_, bruteGrid_bounds (List.argmin_mem hmem), ?_⟩
  · rw [Solver.brute_solve, hall, if_pos rfl, hm]
    rfl
  · intro phi hphi
    exact List.le_of_mem_argmin
      (f := fun x => |(Section.func rotor sec x v omega).getD 0|) hphi hmem

/-- No grid angle has `sin = 0` or `cos = 0`: the grid lies inside
`(-pi, pi)` and the candidate angles `0` and `plus/minus pi/2` would force
`2i = 3599`, `9i = 25193` or `9i = 7198`, none of which has a natural
solution. -/
theorem bruteGrid_sin_cos_ne {x : ℝ} (hx : x ∈ bruteGrid 3600) :
    Real.sin x ≠ 0 ∧ Real.cos x ≠ 0 := by
  have hb := bruteGrid_bounds hx
  rw [bruteGrid] at hx
  obtain ⟨i, hi, rfl⟩ := List.mem_map.mp hx
  rw [List.mem_range] at hi
  have hcast : ((3600 - 1 : ℕ) : ℝ) = 3599 := by norm_num
  rw [hcast] at hb ⊢
  constructor
  · intro hzero
    have h1 : -π < -0.9 * π + (i : ℝ) * (1.8 * π / 3599) := by
      nlinarith [Real.pi_pos, hb.1]
    have h2 : -0.9 * π + (i : ℝ) * (1.8 * π / 3599) < π := by
      nlinarith [Real.pi_pos, hb.2]
    have hx0 := (Real.sin_eq_zero_iff_of_lt_of_lt h1 h2).mp hzero
    have h3 : ((i : ℝ) * 1.8 - 0.9 * 3599) * π = 0 := by
      linear_combination 3599 * hx0
    have h4 : (i : ℝ) * 1.8 - 0.9 * 3599 = 0 := by
      rcases mul_eq_zero.mp h3 with h | h
      · exact h
      · exact absurd h Real.pi_ne_zero
    have h5 : ((2 * i : ℕ) : ℝ) = 3599 := by push_cast; linarith
    have h6 : 2 * i = 3599 := by exact_mod_cast h5
    omega
  · intro hzero
    obtain ⟨k, hk⟩ := Real.cos_eq_zero_iff.mp hzero
    rw [hk] at hb
    have j1 : ((2 * k + 1 : ℤ) : ℝ) < 2 := by push_cast; nlinarith [Real.pi_pos, hb.2]
    have j2 : (-2 : ℝ) < ((2 * k + 1 : ℤ) : ℝ) := by push_cast; nlinarith [Real.pi_pos, hb.1]
    have j1i : (2 * k + 1 : ℤ) < 2 := by exact_mod_cast j1
    have j2i : (-2 : ℤ) < 2 * k + 1 := by exact_mod_cast j2
    have hk01 : k = 0 ∨ k = -1 := by omega
    rcases hk01 with rfl | rfl
    · push_cast at hk
      have h3 : ((i : ℝ) * 1.8 - 1.4 * 3599) * π = 0 := by
        linear_combination 3599 * hk
      have h4 : (i : ℝ) * 1.8 - 1.4 * 3599 = 0 := by
        rcases mul_eq_zero.mp h3 with h | h
        · exact h
        · exact absurd h Real.pi_ne_zero
      have h5 : ((9 * i : ℕ) : ℝ) = 25193 := by push_cast; linarith
      have h6 : 9 * i = 25193 := by exact_mod_cast h5
      omega
    · push_cast at hk
      have h3 : ((i : ℝ) * 1.8 - 0.4 * 3599) * π = 0 := by
        linear_combination 3599 * hk
      have h4 : (i : ℝ) * 1.8 - 0.4 * 3599 = 0 := by
        rcases mul_eq_zero.mp h3 with h | h
        · exact h
        · exact absurd h Real.pi_ne_zero
      have h5 : ((9 * i : ℕ) : ℝ) = 7198 := by push_cast; linarith
      have h6 : 9 * i = 7198 := by exact_mod_cast h5
      omega

/-- Guarded Prandtl sub-factor is positive away from `[-500, 0]`: by the
clamp on the left, by `exp(-f) < 1` on the right. -/
theorem prandtlFactor_pos {f : ℝ} (hf : f < -500 ∨ 0 < f) : 0 < prandtlFactor f := by
  rcases hf with h | h
  · rw [prandtlFactor, if_pos (by linarith)]
    norm_num
  · exact (prandtlFactor_mem h).1

/-- Airfoil forces of `aSec` in closed form: `CT = -1` and
`CQ = sin(phi)*cos(phi)` at every angle. -/
theorem aSec_airfoil_forces (phi : ℝ) :
    Section.airfoil_forces aSec phi = (-1, Real.sin phi * Real.cos phi) := by
  have hsc := Real.sin_sq_add_cos_sq phi
  simp only [Section.airfoil_forces, Section.alphaOf, aSec, aAirfoil, one_mul,
    zero_sub, Real.cos_neg, Real.sin_neg, neg_sq, Prod.mk.injEq]
  constructor
  · linear_combination -hsc
  · linear_combination Real.sin phi * Real.cos phi * hsc

/-- Tip-loss factor of `aSec` on `aRotor` is strictly positive whenever
`sin(phi)` is nonzero: both gaps are `-1`, so `f = -1000/sin(phi)` is
below `-500` (clamped factor `1`) for positive `sin` and strictly positive
(unclamped factor in `(0,1)`) for negative `sin`. -/
theorem aF_pos {x : ℝ} (hsin : Real.sin x ≠ 0) :
    0 < Section.tip_loss aRotor aSec x := by
  have hx0 : x ≠ 0 := fun h => hsin (h ▸ Real.sin_zero)
  have key : ∀ dr : ℝ, dr = -1 →
      0 < Section.prandtl aRotor.n_blades dr aSec.radius x := by
    intro dr hdr
    subst hdr
    rw [Section.prandtl]
    apply prandtlFactor_pos
    have e1 : ((aRotor.n_blades : ℕ) : ℝ) = 2000 := by norm_num [aRotor]
    have e2 : aSec.radius = (1 : ℝ) := rfl
    rw [e1, e2]
    rcases hsin.lt_or_lt with hneg | hpos
    · right
      apply div_pos_of_neg_of_neg (by norm_num)
      nlinarith
    · left
      have hle : Real.sin x ≤ 1 := Real.sin_le_one x
      rw [div_lt_iff₀ (by nlinarith : (0 : ℝ) < 2 * 1 * Real.sin x)]
      nlinarith
  rw [Section.tip_loss, if_neg hx0]
  have g1 : aRotor.blade_radius - aSec.radius = -1 := by norm_num [aRotor, aSec]
  have g2 : aSec.radius - aRotor.radius_hub = -1 := by norm_num [aRotor, aSec]
  rw [g1, g2]
  exact mul_pos (key _ rfl) (key _ rfl)

/-- Every residual evaluation of `aSec` on `aRotor` at `v = 0`,
`omega = 1` succeeds when `sin` and `cos` are nonzero: each divisor of
`Section.func` is bounded away from zero. -/
theorem aFunc_isSome {x : ℝ} (hsin : Real.sin x ≠ 0) (hcos : Real.cos x ≠ 0) :
    (Section.func aRotor aSec x 0 1).isSome = true := by
  have hx0 : x ≠ 0 := fun h => hsin (h ▸ Real.sin_zero)
  have hF := aF_pos hsin
  have hs2 : 0 < Real.sin x ^ 2 := pow_two_pos_of_ne_zero hsin
  have hCTQ := aSec_airfoil_forces x
  have hsig : aSec.sigma = (1 : ℝ) := rfl
  have hCe : aSec.C = (1 : ℝ) := rfl
  have hrad : aSec.radius = (1 : ℝ) := rfl
  simp only [Section.func]
  split_ifs with h0 h1 h2 h3 h4 h5 h6
  · rw [hrad] at h0
    exact absurd (by linarith [h0.2] : Real.sin x = 0) hsin
  · rw [hsig, hCTQ] at h1
    norm_num at h1
  · rw [hsig, hCTQ] at h2
    simp only [one_mul, mul_eq_zero] at h2
    rcases h2 with h | h
    · exact absurd h hsin
    · exact absurd h hcos
  · rw [hsig, hCe, hCTQ] at h3
    have hd : (4 : ℝ) * Section.tip_loss aRotor aSec x * Real.sin x ^ 2 / (1 * (-1, Real.sin x * Real.cos x).1)
        = -(4 * Section.tip_loss aRotor aSec x * Real.sin x ^ 2) := by
      norm_num
      ring
    rw [hd] at h3
    nlinarith
  · rw [hsig, hCe, hCTQ] at h4
    have he : (4 : ℝ) * Section.tip_loss aRotor aSec x * Real.sin x * Real.cos x / (1 * (-1, Real.sin x * Real.cos x).2)
        = 4 * Section.tip_loss aRotor aSec x := by
      field_simp
      ring
    rw [he] at h4
    nlinarith
  · rw [hsig, hCe, hCTQ] at h5
    have hd : (4 : ℝ) * Section.tip_loss aRotor aSec x * Real.sin x ^ 2 / (1 * (-1, Real.sin x * Real.cos x).1)
        = -(4 * Section.tip_loss aRotor aSec x * Real.sin x ^ 2) := by
      norm_num
      ring
    rw [hd] at h5
    have hden : -(4 * Section.tip_loss aRotor aSec x * Real.sin x ^ 2) - 1 < 0 := by
      nlinarith
    field_simp [ne_of_lt hden] at h5
  · rw [hsig, hCe, hCTQ, hrad] at h6
    have he : (4 : ℝ) * Section.tip_loss aRotor aSec x * Real.sin x * Real.cos x / (1 * (-1, Real.sin x * Real.cos x).2)
        = 4 * Section.tip_loss aRotor aSec x := by
      field_simp
      ring
    rw [he] at h6
    have hp : (0 : ℝ) < 4 * Section.tip_loss aRotor aSec x + 1 := by nlinarith
    field_simp [ne_of_gt hp] at h6
  · rfl

/-- C3 witness (amended claim): at the concrete rotor `aRotor`, section
`aSec`, inflow velocity `0` and `omega = 1`, every grid evaluation
succeeds, and `brute_solve` returns a grid angle of minimal residual
magnitude inside `[-0.9*pi, 0.9*pi]`. -/
theorem brute_solve_success_argmin_witness :
    ∃ m, Solver.brute_solve aRotor aSec 0 1 = some m
      ∧ (-0.9 * π ≤ m ∧ m ≤ 0.9 * π)
      ∧ ∀ phi ∈ bruteGrid 3600,
          |(Section.func aRotor aSec m 0 1).getD 0|
            ≤ |(Section.func aRotor aSec phi 0 1).getD 0| :=
  brute_solve_success_argmin aRotor aSec 0 1 fun _ hphi =>
    aFunc_isSome (bruteGrid_sin_cos_ne hphi).1 (bruteGrid_sin_cos_ne hphi).2

/-- C7: the slipstream radius is exactly `blade_radius/sqrt(2)` and the
slipstream velocity is `Cs*sqrt(2*T/(rho*area))`, which scales as the
square root of the thrust; in coaxial mode the secondary rotor is solved
with exactly these as inflow velocity and inflow radius and its own rpm,
while the primary components of the result are the standalone primary
solve, with no feedback from the secondary. -/
theorem slipstream_secondary_spec (cfg : SolverCfg)
    (hpa : 0 < cfg.fluid.rho * (Rotor.precalc cfg.rotor).area) :
    (∀ T, 0 ≤ T → Solver.slipstream cfg T =
        some ((Rotor.precalc cfg.rotor).blade_radius / Real.sqrt 2,
          cfg.Cs * Real.sqrt (2 * T / (cfg.fluid.rho * (Rotor.precalc cfg.rotor).area))))
    ∧ (∀ T c, 0 ≤ T → 0 ≤ c →
        Solver.slipstream cfg (c ^ 2 * T)
          = (Solver.slipstream cfg T).map fun p => (p.1, c * p.2))
    ∧ (cfg.coaxial = true → ∀ rs vs,
        Solver.slipstream cfg
            (Solver.solve cfg.phiOf cfg.fluid cfg.rotor cfg.rpm cfg.v_inf
              cfg.rotor.diameter).1 = some (rs, vs) →
        Solver.run cfg = some
          ⟨(Solver.solve cfg.phiOf cfg.fluid cfg.rotor cfg.rpm cfg.v_inf
              cfg.rotor.diameter).1,
           (Solver.solve cfg.phiOf cfg.fluid cfg.rotor cfg.rpm cfg.v_inf
              cfg.rotor.diameter).2.1,
           (Solver.solve cfg.phiOf cfg.fluid cfg.rotor cfg.rpm cfg.v_inf
              cfg.rotor.diameter).2.2,
           sections_dataframe (Solver.solveSections cfg.phiOf cfg.fluid cfg.rotor
              cfg.rpm cfg.v_inf cfg.rotor.diameter),
           some ((Solver.solve cfg.phiOf cfg.fluid cfg.rotor2 cfg.rpm2 vs rs).1,
             (Solver.solve cfg.phiOf cfg.fluid cfg.rotor2 cfg.rpm2 vs rs).2.1,
             (Solver.solve cfg.phiOf cfg.fluid cfg.rotor2 cfg.rpm2 vs rs).2.2,
             sections_dataframe (Solver.solveSections cfg.phiOf cfg.fluid cfg.rotor2
              cfg.rpm2 vs rs))⟩) := by
  have hne : cfg.fluid.rho * (Rotor.precalc cfg.rotor).area ≠ 0 := ne_of_gt hpa
  have hsome : ∀ T, 0 ≤ T → Solver.slipstream cfg T =
      some ((Rotor.precalc cfg.rotor).blade_radius / Real.sqrt 2,
        cfg.Cs * Real.sqrt (2 * T / (cfg.fluid.rho * (Rotor.precalc cfg.rotor).area))) := by
    intro T hT
    have harg : ¬(2 * T / (cfg.fluid.rho * (Rotor.precalc cfg.rotor).area) < 0) := by
      push_neg
      exact div_nonneg (by linarith) hpa.le
    rw [Solver.slipstream]
    simp [hne, harg]
  refine ⟨hsome, ?_, ?_⟩
  · intro T c hT hc
    rw [hsome T hT, hsome (c ^ 2 * T) (by positivity)]
    have harg : 2 * (c ^ 2 * T) / (cfg.fluid.rho * (Rotor.precalc cfg.rotor).area)
        = c ^ 2 * (2 * T / (cfg.fluid.rho * (Rotor.precalc cfg.rotor).area)) := by
      ring
    simp only [Option.map_some', Option.some.injEq, Prod.mk.injEq, true_and]
    rw [harg, Real.sqrt_mul (sq_nonneg c), Real.sqrt_sq hc]
    ring
  · intro hco rs vs hsl
    rw [Solver.run]
    simp only [hco, if_true, hsl]

/-- C7 witness: the slipstream formula evaluated at the concrete
configuration `wCfg` and thrust `T = 0`. -/
theorem slipstream_secondary_spec_witness :
    Solver.slipstream wCfg 0 =
      some ((Rotor.precalc wCfg.rotor).blade_radius / Real.sqrt 2,
        wCfg.Cs * Real.sqrt (2 * 0 / (wCfg.fluid.rho * (Rotor.precalc wCfg.rotor).area))) :=
  (slipstream_secondary_spec wCfg
    (by simp only [wCfg, wRotor, Rotor.precalc]; positivity)).1 0 le_rfl

/-- C10: in coaxial mode, a strictly negative primary thrust makes the
`sqrt` argument of `slipstream` negative, so `slipstream` fails (Python
raises `ValueError`) and `run` aborts with no secondary-rotor results. -/
theorem coaxial_negative_thrust_aborts (cfg : SolverCfg)
    (hco : cfg.coaxial = true)
    (hT : (Solver.solve cfg.phiOf cfg.fluid cfg.rotor cfg.rpm cfg.v_inf
        cfg.rotor.diameter).1 < 0)
    (hpa : 0 < cfg.fluid.rho * (Rotor.precalc cfg.rotor).area) :
    Solver.slipstream cfg (Solver.solve cfg.phiOf cfg.fluid cfg.rotor cfg.rpm
        cfg.v_inf cfg.rotor.diameter).1 = none
    ∧ Solver.run cfg = none := by
  have hne : cfg.fluid.rho * (Rotor.precalc cfg.rotor).area ≠ 0 := ne_of_gt hpa
  have hneg : 2 * (Solver.solve cfg.phiOf cfg.fluid cfg.rotor cfg.rpm cfg.v_inf
      cfg.rotor.diameter).1 / (cfg.fluid.rho * (Rotor.precalc cfg.rotor).area) < 0 :=
    div_neg_of_neg_of_pos (by linarith) hpa
  have hs : Solver.slipstream cfg (Solver.solve cfg.phiOf cfg.fluid cfg.rotor cfg.rpm
      cfg.v_inf cfg.rotor.diameter).1 = none := by
    rw [Solver.slipstream]
    simp [hne, hneg]
  refine ⟨hs, ?_⟩
  rw [Solver.run]
  simp [hco, hs]

/-- C10 witness: the concrete coaxial configuration `bCfg` has primary
thrust `-4*pi < 0` and `run` returns no results at all. -/
theorem coaxial_negative_thrust_aborts_witness : Solver.run bCfg = none := by
  have hphi : (π / 2 : ℝ) ≠ 0 := by positivity
  have hT : (Solver.solve bCfg.phiOf bCfg.fluid bCfg.rotor bCfg.rpm bCfg.v_inf
      bCfg.rotor.diameter).1 < 0 := by
    simp only [Solver.solve, bCfg, bRotor, bSec, bAirfoil, Rotor.precalc,
      inflowVelocity, Section.forces, Section.induction_factors,
      Section.airfoil_forces, Section.alphaOf, Section.tip_loss, Section.prandtl,
      prandtlFactor, prandtlUnguarded, List.foldl_cons, List.foldl_nil]
    norm_num [hphi, Real.sin_pi_div_two, Real.cos_pi_div_two, Real.sqrt_one]
    nlinarith [Real.pi_pos]
  exact (coaxial_negative_thrust_aborts bCfg rfl hT
    (by simp only [bCfg, bRotor, Rotor.precalc]; positivity)).2

end
